import Mathlib

/-!
# Verification of the covid19-bot report engine and delivery scheduler

Shallow embedding of the parts of `helpers/report.py`, `helpers/bot.py` and
`helpers/database.py` (cavfiumella/covid19-bot) that carry the algorithmic
content: the report engine `Reporter.get_report`, the quiet-hours gate and
delivery loop in `Reporter._target`, the delivery marker
`MyBot.update_last_report`, and the per-chat report request assembly in
`Reporter.send_reports`.

Conventions of the embedding:
* raw timestamps (`pd.Timestamp` values in the date column) are natural
  numbers `Ts`, ordered as the underlying instants;
* a period key (the result of `pd.Timestamp(t).strftime(fmt)`) is a natural
  number `Key`; the strftime pattern becomes a function `fmt : Ts → Key`.
  The period patterns used by the bot ("%Y-%m-%d", "anno %Y, settimana %W",
  "%Y-%m") produce zero-padded strings whose lexicographic order agrees with
  the chronological order of the buckets, which is the numeric order on `Key`;
* floating-point cell values are modelled by `EV`: an exact rational together
  with the IEEE specials `nan`, `inf`, `-inf` produced by `diff`,
  `pct_change` and division by zero in pandas/numpy.
-/

/-- Raw timestamp: the value held by the date column of an observation
table, ordered chronologically. -/
abbrev Ts := Nat

/-- Period key: the result of formatting a timestamp under a cadence
pattern, ordered chronologically (see module docstring). -/
abbrev Key := Nat

/-- A floating-point value as produced by the pandas pipeline: an exact
rational or one of the IEEE specials. -/
inductive EV where
  | nan : EV
  | inf : EV
  | ninf : EV
  | fin : ℚ → EV
deriving Repr, DecidableEq

namespace EV

/-- IEEE addition restricted to the cases the pipeline produces:
`nan` is absorbing, `inf + -inf = nan`. -/
def add : EV → EV → EV
  | nan, _ => nan
  | _, nan => nan
  | inf, ninf => nan
  | ninf, inf => nan
  | inf, _ => inf
  | _, inf => inf
  | ninf, _ => ninf
  | _, ninf => ninf
  | fin a, fin b => fin (a + b)

/-- IEEE subtraction: `nan` absorbing, `inf - inf = nan`. -/
def sub : EV → EV → EV
  | nan, _ => nan
  | _, nan => nan
  | inf, inf => nan
  | ninf, ninf => nan
  | inf, _ => inf
  | ninf, _ => ninf
  | fin _, inf => ninf
  | fin _, ninf => inf
  | fin a, fin b => fin (a - b)

/-- IEEE division as numpy performs it: `nan` absorbing, `x / 0` is `±inf`
for nonzero finite `x` (numpy emits a warning and returns a signed
infinity), `0 / 0` is `nan`, finite over infinite is `0`. -/
def div : EV → EV → EV
  | nan, _ => nan
  | _, nan => nan
  | inf, inf => nan
  | inf, ninf => nan
  | ninf, inf => nan
  | ninf, ninf => nan
  | inf, fin b => if b < 0 then ninf else inf
  | ninf, fin b => if b < 0 then inf else ninf
  | fin _, inf => fin 0
  | fin _, ninf => fin 0
  | fin a, fin b =>
      if b = 0 then (if a = 0 then nan else if 0 < a then inf else ninf)
      else fin (a / b)

/-- Multiplication by the positive literal 100, used by
`Reporter.get_report` to scale `pct_change` output. -/
def mul100 : EV → EV
  | nan => nan
  | inf => inf
  | ninf => ninf
  | fin a => fin (100 * a)

/-- Binary maximum with pandas `skipna` semantics: `nan` acts as the
identity, infinities compare as expected. -/
def max2 : EV → EV → EV
  | nan, b => b
  | a, nan => a
  | inf, _ => inf
  | _, inf => inf
  | ninf, b => b
  | a, ninf => a
  | fin a, fin b => fin (max a b)

/-- The finite payload, when there is one. -/
def toFin : EV → Option ℚ
  | fin q => some q
  | _ => none

/-- `true` on `nan` only: pandas aggregations skip exactly these. -/
def isNan : EV → Bool
  | nan => true
  | _ => false

end EV

/-- Skip-`nan` maximum of a list, as `groupby(...).max()` computes it per
group: `nan` entries are ignored and an all-`nan` (or empty) group yields
`nan`. -/
def evMax (xs : List EV) : EV := xs.foldl EV.max2 EV.nan

/-- Skip-`nan` sum of a list, as `groupby(...).sum()` computes it per
group: `nan` entries are dropped and an empty group sums to `0`. -/
def evSum (xs : List EV) : EV :=
  (xs.filter (fun v => ¬ v.isNan)).foldl EV.add (EV.fin 0)

/-- Skip-`nan` mean, as `groupby(...).mean()` computes it per group: the
sum of the non-`nan` entries over their count, `nan` when none remain. -/
def evMean (xs : List EV) : EV :=
  let n := (xs.filter (fun v => ¬ v.isNan)).length
  if n = 0 then EV.nan else (evSum xs).div (EV.fin n)

/-- The value of the `dev std` column of a report row.  The source computes
`groupby(...).std()`, the square root of the sample variance with
`ddof = 1`; since the square root of a rational is in general irrational,
the embedding carries the radicand: `sqrtOf v` denotes `√v` for the
nonnegative variance `v`, so `sqrtOf v` is the number zero iff `v = 0`.
`nan` is pandas' result for a group with at most one non-`nan` entry. -/
inductive StdEV where
  | nan : StdEV
  | sqrtOf : ℚ → StdEV
deriving Repr, DecidableEq

/-- The finite payloads of a list of values, in order. -/
def finVals : List EV → List ℚ
  | [] => []
  | EV.fin q :: xs => q :: finVals xs
  | _ :: xs => finVals xs

/-- Sample standard deviation of a group with pandas defaults
(`skipna = True`, `ddof = 1`): `nan` entries are dropped; a group with at
most one remaining entry (or a non-finite entry) has standard deviation
`nan`; otherwise the result is the square root of
`Σ (x - mean)² / (n - 1)`, carried as `StdEV.sqrtOf` of the radicand. -/
def evStd (xs : List EV) : StdEV :=
  let nn := xs.filter (fun v => ¬ v.isNan)
  let fs := finVals xs
  if fs.length ≠ nn.length then StdEV.nan
  else if fs.length ≤ 1 then StdEV.nan
  else
    let m : ℚ := (fs.foldl (· + ·) 0) / fs.length
    StdEV.sqrtOf ((fs.map (fun x => (x - m) ^ 2)).foldl (· + ·) 0
      / (fs.length - 1))

/-- Forward fill of `nan` entries by the last preceding non-`nan` value
(`fillna(method="pad")`), the preprocessing step of pandas
`Series.pct_change`; `last` is the value padded in, initially `nan`. -/
def padFill : List EV → EV → List EV
  | [], _ => []
  | x :: xs, last =>
      let y := if x.isNan then last else x
      y :: padFill xs y

/-- Elementwise `xs / xs.shift(1) - 1`: each entry divided by its
predecessor (`prev` shifted in at the front) with IEEE semantics. -/
def divShift : List EV → EV → List EV
  | [], _ => []
  | x :: xs, prev => ((x.div prev).sub (EV.fin 1)) :: divShift xs x

/-- pandas `Series.pct_change()` with its default `fill_method="pad"`:
forward-fill, then `filled / filled.shift(1) - 1`; the first entry divides
by the shifted-in `nan` and is therefore `nan`. -/
def pctChange (ms : List EV) : List EV := divShift (padFill ms EV.nan) EV.nan

/-- The quiet-hours ("do not disturb") gate of `Reporter._target`
(report.py lines 511-519), with instants as minutes of the day:
`T0`/`T` are the configured window start/end and `now` the current
instant; the source condition is
`T0 < T and T0 < now and now < T or T0 > T and (T0 < now or now < T)`. -/
def suppressed (now T0 T : Nat) : Bool :=
  (decide (T0 < T) && decide (T0 < now) && decide (now < T)) ||
  (decide (T0 > T) && (decide (T0 < now) || decide (now < T)))

/-- A cell of an observation table: either a timestamp (the date column
holds date strings, parsed by `pd.Timestamp`) or a numeric value. -/
inductive Cell where
  | date : Ts → Cell
  | num : EV → Cell
deriving Repr, DecidableEq

/-- The timestamp carried by a cell.  In the source the date column value
is fed to `pd.Timestamp`; the embedding only considers well-formed tables
whose date columns hold `Cell.date` entries, and maps the remaining case
to instant `0` to stay total. -/
def Cell.asTs : Cell → Ts
  | date t => t
  | num _ => 0

/-- The numeric value carried by a cell (a date cell is never selected as
a numeric variable in the claims considered; `nan` keeps the accessor
total). -/
def Cell.asNum : Cell → EV
  | num v => v
  | date _ => EV.nan

/-- An observation table (`pd.DataFrame`): named columns and rows aligned
with them positionally. -/
structure DFrame where
  cols : List String
  rows : List (List Cell)
deriving Repr, DecidableEq

/-- Label-based access to the cell of a row under a column name, walking
the column list and the (positionally aligned) row together; `num nan`
when the column is absent, a situation the strict-mode validation of
`get_report` rejects up front. -/
def colCell : List String → List Cell → String → Cell
  | [], _, _ => Cell.num EV.nan
  | _, [], _ => Cell.num EV.nan
  | c' :: cs, x :: xs, c => if c' = c then x else colCell cs xs c

/-- The cell of row `r` under column `c` of frame `df`
(label-based access, `df.loc[...]`). -/
def DFrame.cell (df : DFrame) (r : List Cell) (c : String) : Cell :=
  colCell df.cols r c

/-- Python `list.index`: the position of the first occurrence of `k`
(the length when absent, a case `get_report` has excluded by the time it
is used). -/
def idxFrom (k : Nat) : List Nat → Nat
  | [] => 0
  | x :: xs => if x = k then 0 else idxFrom k xs + 1

/-- Insert into an ascending list, keeping it ascending. -/
def insSorted (x : Nat) : List Nat → List Nat
  | [] => [x]
  | y :: ys => if x ≤ y then x :: y :: ys else y :: insSorted x ys

/-- `drop_duplicates()` on a series: keep the first occurrence of every
value (`seen` accumulates the values already kept). -/
def dedupSeen (seen : List Nat) : List Nat → List Nat
  | [] => []
  | x :: xs =>
      if x ∈ seen then dedupSeen seen xs
      else x :: dedupSeen (x :: seen) xs

/-- `drop_duplicates().sort_values()` on a series of period keys: the
distinct values in ascending order (insertion sort over the
duplicate-free list). -/
def sortedDistinct (l : List Nat) : List Nat :=
  (dedupSeen [] l).foldr insSorted []

/-- The values of `var` in group `k` after `groupby` on the first
component: within-group order is the original row order, as in pandas. -/
def groupVals (rows : List (Key × EV)) (k : Key) : List EV :=
  (rows.filter (fun r => r.1 = k)).map (fun r => r.2)

/-- First difference along a column (`DataFrame.diff()`), with `prev` the
value shifted in at the front: the first entry is `v[0] - nan = nan`,
entry `i` is `v[i] - v[i-1]` with IEEE semantics. -/
def diffFrom (prev : EV) : List (Ts × EV) → List (Ts × EV)
  | [] => []
  | (t, v) :: rest => (t, v.sub prev) :: diffFrom v rest

/-- First difference along a column indexed by sorted timestamps
(`DataFrame.diff()`): the first entry is `nan`. -/
def diffVals (l : List (Ts × EV)) : List (Ts × EV) := diffFrom EV.nan l

/-- The cumulative-to-actual conversion of `Reporter.get_report`
(report.py lines 327-336): group the (already period-restricted) rows by
the raw timestamp of the date column, take the maximum value per
timestamp, take the first difference between consecutive timestamps, and
re-bucket the per-instant increments under the period key `fmt`. -/
def cumulToIncr (rows : List (Ts × EV)) (fmt : Ts → Key) : List (Key × EV) :=
  let ts := sortedDistinct (rows.map (fun r => r.1))
  let maxima := ts.map (fun t => (t, evMax (groupVals rows t)))
  (diffVals maxima).map (fun p => (fmt p.1, p.2))

/-- One row of a generated report: the four statistics columns
`["totale", "media", "dev std", "var pct"]` of `Reporter.get_report`. -/
structure RowStats where
  totale : EV
  media : EV
  devStd : StdEV
  varPct : EV
deriving Repr, DecidableEq

/-- The statistics block of `Reporter.get_report` (report.py lines
340-344) for one variable: group the value column by period key and read,
at the label `current`, the group sum, mean, standard deviation and the
percent change of the means (pandas `pct_change` over the ascending group
index) scaled by 100. -/
def varStats (rows : List (Key × EV)) (current : Key) : RowStats :=
  let g := groupVals rows current
  let ks := sortedDistinct (rows.map (fun r => r.1))
  let means := ks.map (fun k => evMean (groupVals rows k))
  { totale := evSum g
    media := evMean g
    devStd := evStd g
    varPct := ((pctChange means).getD (idxFrom current ks) EV.nan).mul100 }

/-- The first date-kind column in declaration order
(`date_columns[0]` in the source). -/
def dateColumns (vdecls : List (String × String)) : List String :=
  (vdecls.filter (fun v => v.2 = "date")).map (fun v => v.1)

/-- The "previous" period key picked by `Reporter.get_report` (report.py
lines 308-309): `dates_fmt.iloc[dates_fmt.tolist().index(current) - 1]`
over the ascending distinct keys.  When `current` is the earliest key the
Python index is `-1`, which `iloc` resolves to the LAST element
(negative-index wraparound), not an error. -/
def previousKeyOf (datesFmt : List Key) (current : Key) : Key :=
  let i := idxFrom current datesFmt
  datesFmt.getD (if i = 0 then datesFmt.length - 1 else i - 1) 0

/-- The `for var, T in variables.items()` loop of `Reporter.get_report`
(report.py lines 322-348): one report row per `actual` or `cumulative`
variable, any other kind silently skipped; `restricted` is the
period-keyed table already cut down to the previous and current
periods. -/
def reportRows (df : DFrame) (dc : String) (current : Key)
    (fmt : Ts → Key) (restricted : List (Key × List Cell)) :
    List (String × String) → List (String × RowStats)
  | [] => []
  | (var, T) :: rest =>
      if T = "actual" then
        (var, varStats
          (restricted.map (fun p => (p.1, (df.cell p.2 var).asNum)))
          current) :: reportRows df dc current fmt restricted rest
      else if T = "cumulative" then
        (var, varStats
          (cumulToIncr
            (restricted.map (fun p =>
              ((df.cell p.2 dc).asTs, (df.cell p.2 var).asNum)))
            fmt)
          current) :: reportRows df dc current fmt restricted rest
      else reportRows df dc current fmt restricted rest

/-- `Reporter.get_report` (report.py lines 209-352).  Parameters mirror
the source: the observation table `df`, the `(column, kind)` declarations
in order, the `current` period key, the bucketing pattern `fmt` and the
`errors` strictness flag.  Failures (`raise ValueError`) become
`Except.error`. -/
def get_report (df : DFrame) (vdecls : List (String × String))
    (current : Key) (fmt : Ts → Key) (errors : String) :
    Except String (List (String × RowStats)) :=
  -- errors fallback: invalid values degrade to "ignore"
  let errors := if errors = "strict" ∨ errors = "ignore" then errors
    else "ignore"
  -- check if there are some missing variables
  if ¬ (vdecls.all (fun v => v.1 ∈ df.cols)) ∧ errors = "strict" then
    .error "missing variables found"
  else
    -- check if there is one or more date variables
    match dateColumns vdecls with
    | [] => .error "there is not a date variable in passed ones"
    | dc :: rest =>
      if rest ≠ [] ∧ errors = "strict" then
        .error "there are more than one date variable"
      else
        -- transform dates: period key of every row under fmt
        let keyed := df.rows.map (fun r => (fmt (df.cell r dc).asTs, r))
        -- check current date is present in dataframe
        if current ∉ keyed.map (fun p => p.1) then
          .error "dataframe does not contain current"
        else
          -- get previous date (iloc with Python negative-index wraparound)
          let datesFmt := sortedDistinct (keyed.map (fun p => p.1))
          let previous := previousKeyOf datesFmt current
          -- keep only current and previous dates
          let restricted := keyed.filter
            (fun p => p.1 = previous ∨ p.1 = current)
          .ok (reportRows df dc current fmt restricted vdecls)

/-! ## Delivery marker and chat data (`helpers/bot.py`) -/

/-- Association-list lookup, the first binding of the key
(Python `dict.get`). -/
def alGet {α β : Type} [DecidableEq α] : List (α × β) → α → Option β
  | [], _ => none
  | (k', v') :: rest, k => if k' = k then some v' else alGet rest k

/-- Association-list write with Python `dict` semantics: an existing key
keeps its position and gets the new value, a new key is appended. -/
def alSet {α β : Type} [DecidableEq α] :
    List (α × β) → α → β → List (α × β)
  | [], k, v => [(k, v)]
  | (k', v') :: rest, k, v =>
      if k' = k then (k, v) :: rest else (k', v') :: alSet rest k v

/-- The value stored under `"last_report"` in a chat's data: a mapping
from data-source key to last delivered period key, or (legacy) a plain
string that is not a mapping. -/
inductive LRVal where
  | str : String → LRVal
  | map : List (String × Key) → LRVal
deriving Repr, DecidableEq

/-- The slice of a chat's stored settings that the delivery loop reads
and writes: the subscribed cadence (`settings.get("period")`) and the
delivery marker (`settings.get("last_report")`).  The remaining settings
(output format, per-source area selections) only shape the payload built
by `send_reports` and are abstracted behind the send oracle of the pass
model. -/
structure ChatData where
  period : Option String
  lastReport : Option LRVal
deriving Repr, DecidableEq

/-- `MyBot.update_last_report` (bot.py lines 1375-1392): when the stored
`last_report` is a `dict`, update it in place under `db_key`; otherwise
replace the whole value by the one-entry mapping `{db_key: t}`. -/
def update_last_report (cd : ChatData) (dbKey : String) (t : Key) :
    ChatData :=
  match cd.lastReport with
  | some (LRVal.map m) =>
      { cd with lastReport := some (LRVal.map (alSet m dbKey t)) }
  | _ => { cd with lastReport := some (LRVal.map [(dbKey, t)]) }

/-- The delivery marker read by the "already sent" check of
`Reporter._target` (lines 549-550): defined only when `last_report` is a
mapping (`type(...) == dict`), in which case it is its entry for `db`. -/
def markerOf (cd : ChatData) (db : String) : Option Key :=
  match cd.lastReport with
  | some (LRVal.map m) => alGet m db
  | _ => none

/-! ## The delivery pass (`Reporter._target`) -/

/-- The chat-data store (`dispatcher.chat_data`): chat id to data. -/
abbrev ChatStore := List (Nat × ChatData)

/-- A successful dispatch performed by the pass: which chat, which data
source, which period key. -/
structure Disp where
  chat : Nat
  dbKey : String
  key : Key
deriving Repr, DecidableEq

/-- The marker of `(c, db)` as stored: `none` when the chat is absent or
its `last_report` is not a mapping. -/
def stMarker (st : ChatStore) (c : Nat) (db : String) : Option Key :=
  match alGet st c with
  | some cd => markerOf cd db
  | none => none

/-- The cadence subscription of chat `c` as stored. -/
def stPeriod (st : ChatStore) (c : Nat) : Option String :=
  match alGet st c with
  | some cd => cd.period
  | none => none

/-- One subscriber/source unit of the pass (report.py lines 546-572):
read the marker and skip when it already equals `cur`; otherwise call
`send_reports` and, only after it succeeds, `update_last_report`.  The
send oracle `send` stands for the success of `send_reports`; a failure is
the raised exception that the bare `except` swallows, leaving the store
unchanged and dispatching nothing, after which the loop proceeds. -/
def tryDeliver (send : Nat → String → Bool) (c : Nat) (db : String)
    (cur : Key) (st : ChatStore) : ChatStore × List Disp :=
  match alGet st c with
  | none => (st, [])
  | some cd =>
      if markerOf cd db = some cur then (st, [])
      else if send c db then
        (alSet st c (update_last_report cd db cur), [⟨c, db, cur⟩])
      else (st, [])

/-- The `for db_key in self._db.keys()` loop of the pass for one chat and
one cadence. -/
def procDbs (send : Nat → String → Bool) (c : Nat) (cur : Key) :
    List String → ChatStore → ChatStore × List Disp
  | [], st => (st, [])
  | db :: rest, st =>
      let r := tryDeliver send c db cur st
      let r2 := procDbs send c cur rest r.1
      (r2.1, r.2 ++ r2.2)

/-- Static configuration of the pass: the cadences iterated
(`Reporter._periods`), the current period key each cadence yields
(`(now + Timedelta(days=offset[period])).strftime(fmt[period])`, fixed
within a pass since `now` is computed once), and the data-source keys. -/
structure PassConfig where
  periods : List String
  currentOf : String → Key
  dbKeys : List String

/-- The `for period in self._periods` loop of the pass for one chat:
skip the cadences the chat is not subscribed to, process the data
sources for the one it is. -/
def procChat (send : Nat → String → Bool) (cfg : PassConfig) (c : Nat) :
    List String → ChatStore → ChatStore × List Disp
  | [], st => (st, [])
  | p :: rest, st =>
      if stPeriod st c = some p then
        let r := procDbs send c (cfg.currentOf p) cfg.dbKeys st
        let r2 := procChat send cfg c rest r.1
        (r2.1, r.2 ++ r2.2)
      else procChat send cfg c rest st

/-- The outer `for chat_id, settings in ...get_chat_data().items()` loop
over a list of chat ids. -/
def runChats (send : Nat → String → Bool) (cfg : PassConfig) :
    List Nat → ChatStore → ChatStore × List Disp
  | [], st => (st, [])
  | c :: rest, st =>
      let r := procChat send cfg c cfg.periods st
      let r2 := runChats send cfg rest r.1
      (r2.1, r.2 ++ r2.2)

/-- The subscriber loop of one pass of `Reporter._target` (lines
525-572): every chat currently in the store, every cadence, every data
source. -/
def runPass (send : Nat → String → Bool) (cfg : PassConfig)
    (st : ChatStore) : ChatStore × List Disp :=
  runChats send cfg (st.map Prod.fst) st

/-- One full pass of `Reporter._target` (lines 511-572): the
do-not-disturb gate first (`continue`), then `db.update()` for every data
source, then the subscriber loop.  The update loop sits OUTSIDE any
`try`: `updatesOk` lists the outcome of each `db.update()` call
(database.py lines 94-125, a network download that raises on failure),
and the first failure propagates out of the pass as the thread's uncaught
exception, modelled by `Except.error`. -/
def schedulerPass (cfg : PassConfig) (updatesOk : List Bool)
    (send : Nat → String → Bool) (quiet : Bool) (st : ChatStore) :
    Except Unit (ChatStore × List Disp) :=
  if quiet then .ok (st, [])
  else if ¬ (updatesOk.all (· = true)) then .error ()
  else .ok (runPass send cfg st)

/-- Dispatches of `out` addressed to subscriber `c` and source `db`. -/
def countFor (c : Nat) (db : String) (out : List Disp) : Nat :=
  (out.filter (fun d => d.chat = c ∧ d.dbKey = db)).length

/-- Induction invariant of the delivery pass, relating a start store
`st` to the store `st'` and dispatch list `out` a (partial) pass produces,
for one tracked subscriber/source pair `(c₀, db₀)` whose pass-constant
current period key is `K₀`: the pass never touches cadence subscriptions;
it dispatches to `(c₀, db₀)` at most once; once the marker equals `K₀` it
stays so and nothing more is dispatched; and a dispatch leaves the marker
equal to `K₀`. -/
def PassInv (c₀ : Nat) (db₀ : String) (K₀ : Key) (st st' : ChatStore)
    (out : List Disp) : Prop :=
  (∀ x, stPeriod st' x = stPeriod st x) ∧
  countFor c₀ db₀ out ≤ 1 ∧
  (stMarker st c₀ db₀ = some K₀ →
    countFor c₀ db₀ out = 0 ∧ stMarker st' c₀ db₀ = some K₀) ∧
  (1 ≤ countFor c₀ db₀ out → stMarker st' c₀ db₀ = some K₀)

/-! ## Report request assembly (`Reporter.send_reports`) -/

/-- The per-source area selection a chat stores: a single area name or a
list of area names. -/
inductive AreaSel where
  | str : String → AreaSel
  | list : List String → AreaSel
deriving Repr, DecidableEq

/-- A report request issued by `send_reports`: the national table of a
source, or its regional table filtered to one area. -/
inductive Request where
  | national : String → Request
  | regional : String → String → Request
deriving Repr, DecidableEq

/-- `regions.pop("Italia")` (report.py line 395): Python `list.pop` takes
an integer index, so the string argument raises `TypeError`
unconditionally; the surrounding bare `except: pass` swallows it, and the
list is returned unchanged. -/
def popItalia (l : List String) : List String := l

/-- Python `"Italia" in s` for a string value: substring containment. -/
def hasItaliaStr (s : String) : Bool := (s.splitOn "Italia").length > 1

/-- Python `"Italia" in settings.get(db_key)`: list membership or
substring containment. -/
def hasItalia : AreaSel → Bool
  | .str s => hasItaliaStr s
  | .list l => l.contains "Italia"

/-- The sequence of report requests `Reporter.send_reports` issues
(report.py lines 374-414): a national request when `"Italia"` is in the
selection, then — after the ineffective `pop` — one regional request per
listed region other than the `"Nessun report"` placeholder. -/
def send_reports_requests (sel : Option AreaSel) (db : String) :
    List Request :=
  let nats := match sel with
    | some v => if hasItalia v then [Request.national db] else []
    | none => []
  let regions : Option (List String) := match sel with
    | some (.str s) => some (popItalia [s])
    | some (.list l) => some (popItalia l)
    | none => none
  let regs := match regions with
    | none => []
    | some rs =>
        (rs.filter (fun r => r ≠ "Nessun report")).map (Request.regional db)
  nats ++ regs

/-- The per-value text rendering of `Reporter.send_reports` (lines
434-439): the value is first passed to `int(x)`, which raises for the
non-finite floats (`ValueError` on `nan`, `OverflowError` on `±inf`) and
aborts the whole delivery; a finite value is formatted and sending
proceeds.  The embedding records the raised error as `Except.error`. -/
def renderValue : EV → Except Unit ℚ
  | EV.fin q => .ok q
  | _ => .error ()

/-! ## Helper lemmas -/

theorem alGet_alSet_self {α β : Type} [DecidableEq α]
    (m : List (α × β)) (k : α) (v : β) : alGet (alSet m k v) k = some v := by
  induction m with
  | nil => simp [alGet, alSet]
  | cons hd tl ih =>
      by_cases h : hd.1 = k
      · simp [alGet, alSet, h]
      · simp [alGet, alSet, h, ih]

theorem alGet_alSet_ne {α β : Type} [DecidableEq α]
    (m : List (α × β)) (k k' : α) (v : β) (h : k' ≠ k) :
    alGet (alSet m k v) k' = alGet m k' := by
  induction m with
  | nil => simp [alGet, alSet, Ne.symm h]
  | cons hd tl ih =>
      by_cases hh : hd.1 = k
      · simp [alGet, alSet, hh, h, Ne.symm h]
      · simp only [alSet, hh, if_false]
        by_cases hk' : hd.1 = k'
        · simp [alGet, hk']
        · simp [alGet, hk', ih]

theorem markerOf_update_self (cd : ChatData) (db : String) (t : Key) :
    markerOf (update_last_report cd db t) db = some t := by
  unfold update_last_report markerOf
  match h : cd.lastReport with
  | some (LRVal.map m) => simp [alGet_alSet_self]
  | some (LRVal.str s) => simp [alGet]
  | none => simp [alGet]

theorem markerOf_update_ne (cd : ChatData) (db db' : String) (t : Key)
    (hne : db' ≠ db) (k : Key) (hk : markerOf cd db' = some k) :
    markerOf (update_last_report cd db t) db' = some k := by
  unfold markerOf at hk ⊢
  unfold update_last_report
  match h : cd.lastReport with
  | some (LRVal.map m) =>
      rw [h] at hk; simp only [] at hk
      simp [alGet_alSet_ne _ _ _ _ hne, hk]
  | some (LRVal.str s) => rw [h] at hk; simp at hk
  | none => rw [h] at hk; simp at hk

theorem period_update (cd : ChatData) (db : String) (t : Key) :
    (update_last_report cd db t).period = cd.period := by
  unfold update_last_report
  match h : cd.lastReport with
  | some (LRVal.map m) => simp
  | some (LRVal.str s) => simp
  | none => simp

theorem countFor_append (c : Nat) (db : String) (a b : List Disp) :
    countFor c db (a ++ b) = countFor c db a + countFor c db b := by
  simp [countFor, List.filter_append]

/-! ## Claims -/

/-- C2 (counterexample): the claimed boundary semantics of the
quiet-hours gate fails at `now = window_start`.  For the non-wrapping
window `(09:00, 17:00)` (minutes `540, 1020`), the claim says the instant
`09:00` is suppressed (`window_start <= now < window_end`), but the gate's
condition is strict (`T0 < now`) and does not suppress it. -/
theorem claim_C2_counterexample :
    ¬ ((suppressed 540 540 1020 = true) ↔ (540 ≤ 540 ∧ 540 < 1020)) := by
  decide

/-- C2 (amended): the gate is strict at the window start.  Non-wrapping
window (`window_start < window_end`): suppressed iff
`window_start < now < window_end`.  Wrapping window
(`window_start > window_end`): suppressed iff `now > window_start` OR
`now < window_end`.  The claim's sample instants all hold: for window
`(21:00, 10:00)` the instants `23:00` and `05:00` are suppressed and
`15:00` is not; for `(09:00, 17:00)`, `12:00` is suppressed and `20:00`
is not. -/
theorem claim_C2 (now T0 T : Nat) :
    (T0 < T → (suppressed now T0 T = true ↔ (T0 < now ∧ now < T))) ∧
    (T0 > T → (suppressed now T0 T = true ↔ (now > T0 ∨ now < T))) ∧
    suppressed 1380 1260 600 = true ∧ suppressed 300 1260 600 = true ∧
    suppressed 900 1260 600 = false ∧ suppressed 720 540 1020 = true ∧
    suppressed 1200 540 1020 = false := by
  refine ⟨fun h => ?_, fun h => ?_, by decide, by decide, by decide,
    by decide, by decide⟩ <;>
    · simp only [suppressed, Bool.or_eq_true, Bool.and_eq_true,
        decide_eq_true_eq]
      omega

/-- C2 (witness): the amended theorem applied at the claim's sample
windows, hypotheses discharged concretely. -/
theorem claim_C2_witness :
    ((1260 : Nat) > 600 ∧
      (suppressed 1380 1260 600 = true ↔ ((1380 : Nat) > 1260 ∨ 1380 < 600))) ∧
    ((540 : Nat) < 1020 ∧
      (suppressed 720 540 1020 = true ↔ ((540 : Nat) < 720 ∧ 720 < 1020))) :=
  ⟨⟨by decide, (claim_C2 1380 1260 600).2.1 (by decide)⟩,
   ⟨by decide, (claim_C2 720 540 1020).1 (by decide)⟩⟩

/-- C9: when the stored `last_report` is a mapping,
`update_last_report` sets the marker for `dbKey` to `t` and leaves every
other source's marker unchanged; when it is absent or not a mapping, the
whole value becomes the one-entry mapping `{dbKey: t}`. -/
theorem claim_C9 (cd : ChatData) (dbKey k : String) (t : Key) :
    (∀ m, cd.lastReport = some (LRVal.map m) →
      markerOf (update_last_report cd dbKey t) dbKey = some t ∧
      (k ≠ dbKey → markerOf (update_last_report cd dbKey t) k = alGet m k)) ∧
    ((∀ m, cd.lastReport ≠ some (LRVal.map m)) →
      (update_last_report cd dbKey t).lastReport =
        some (LRVal.map [(dbKey, t)])) := by
  constructor
  · intro m hm
    refine ⟨markerOf_update_self cd dbKey t, fun hk => ?_⟩
    unfold update_last_report markerOf
    rw [hm]
    simp [alGet_alSet_ne _ _ _ _ hk]
  · intro h
    unfold update_last_report
    match hm : cd.lastReport with
    | some (LRVal.map m) => exact absurd hm (h m)
    | some (LRVal.str s) => simp
    | none => simp

/-- C9 (witness): `update_last_report` at a two-source mapping and at a
legacy string value. -/
theorem claim_C9_witness :
    (markerOf (update_last_report ⟨some "giorno",
        some (LRVal.map [("contagions", 5), ("vaccines", 7)])⟩
        "contagions" 9) "contagions" = some 9 ∧
      ("vaccines" ≠ "contagions" →
        markerOf (update_last_report ⟨some "giorno",
          some (LRVal.map [("contagions", 5), ("vaccines", 7)])⟩
          "contagions" 9) "vaccines" =
          alGet [("contagions", 5), ("vaccines", 7)] "vaccines")) ∧
    (update_last_report ⟨some "giorno", some (LRVal.str "2021-01-01")⟩
        "contagions" 9).lastReport = some (LRVal.map [("contagions", 9)]) :=
  ⟨(claim_C9 ⟨some "giorno",
      some (LRVal.map [("contagions", 5), ("vaccines", 7)])⟩
      "contagions" "vaccines" 9).1 _ rfl,
   (claim_C9 ⟨some "giorno", some (LRVal.str "2021-01-01")⟩
      "contagions" "vaccines" 9).2 (fun m h => by simp at h)⟩

/-- C10: for a stored area list containing `"Italia"`, `send_reports`
never removes `"Italia"` (the attempted `list.pop("Italia")` raises
`TypeError`, silently swallowed), so beside the national report a
regional report with area `"Italia"` is also requested. -/
theorem claim_C10 (l : List String) (db : String) (hl : "Italia" ∈ l) :
    popItalia l = l ∧
    send_reports_requests (some (AreaSel.list l)) db =
      Request.national db ::
        (l.filter (fun r => r ≠ "Nessun report")).map (Request.regional db) ∧
    Request.regional db "Italia" ∈
      send_reports_requests (some (AreaSel.list l)) db := by
  have hreq : send_reports_requests (some (AreaSel.list l)) db =
      Request.national db ::
        (l.filter (fun r => r ≠ "Nessun report")).map
          (Request.regional db) := by
    unfold send_reports_requests hasItalia popItalia
    simp [hl]
  refine ⟨rfl, hreq, ?_⟩
  rw [hreq]
  refine List.mem_cons_of_mem _ (List.mem_map.mpr ⟨"Italia", ?_, rfl⟩)
  exact List.mem_filter.mpr ⟨hl, by decide⟩

/-- C10 (witness): the area list `["Italia", "Lazio"]`. -/
theorem claim_C10_witness :
    popItalia ["Italia", "Lazio"] = ["Italia", "Lazio"] ∧
    send_reports_requests (some (AreaSel.list ["Italia", "Lazio"]))
        "contagions" =
      Request.national "contagions" ::
        (["Italia", "Lazio"].filter (fun r => r ≠ "Nessun report")).map
          (Request.regional "contagions") ∧
    Request.regional "contagions" "Italia" ∈
      send_reports_requests (some (AreaSel.list ["Italia", "Lazio"]))
        "contagions" :=
  claim_C10 ["Italia", "Lazio"] "contagions" (by decide)

set_option maxHeartbeats 3000000 in
/-- C1: cumulative-to-incremental conversion.  First conjunct: the
end-to-end scenario — a cumulative variable whose per-timestamp maxima on
three consecutive days are `100, 140, 190` (day 2 holding two
observations at the same instant, `120` and `140`, collapsed by the
per-timestamp maximum); the day-cadence report for day 3 (`fmt t = t/24`,
`current = 2`) has total `50 = 190 - 140`.  Second conjunct: a flat
cumulative series of constant value `c` yields total `0`.  -/
theorem claim_C1 (c : ℚ) :
    get_report ⟨["data", "tamponi"],
        [[Cell.date 0, Cell.num (EV.fin 100)],
         [Cell.date 24, Cell.num (EV.fin 130)],
         [Cell.date 25, Cell.num (EV.fin 120)],
         [Cell.date 25, Cell.num (EV.fin 140)],
         [Cell.date 48, Cell.num (EV.fin 190)]]⟩
      [("data", "date"), ("tamponi", "cumulative")] 2 (fun t => t / 24)
      "strict" =
      .ok [("tamponi", ⟨EV.fin 50, EV.fin 50, StdEV.nan, EV.fin 400⟩)] ∧
    get_report ⟨["data", "tamponi"],
        [[Cell.date 0, Cell.num (EV.fin c)],
         [Cell.date 24, Cell.num (EV.fin c)],
         [Cell.date 25, Cell.num (EV.fin c)],
         [Cell.date 48, Cell.num (EV.fin c)]]⟩
      [("data", "date"), ("tamponi", "cumulative")] 2 (fun t => t / 24)
      "strict" =
      .ok [("tamponi", ⟨EV.fin 0, EV.fin 0, StdEV.nan, EV.nan⟩)] := by
  constructor <;>
    norm_num [get_report, reportRows, DFrame.cell, colCell, dateColumns,
      previousKeyOf, varStats, groupVals, cumulToIncr, evMax, diffVals,
      diffFrom, EV.max2, sortedDistinct, dedupSeen, insSorted, idxFrom,
      evSum, evMean, evStd, pctChange, padFill, divShift, EV.add, EV.sub,
      EV.div, EV.mul100, EV.isNan, finVals, Cell.asTs, Cell.asNum, max_def,
      show ("cumulative" : String) ≠ "date" by decide,
      show ("date" : String) ≠ "cumulative" by decide,
      show ("cumulative" : String) ≠ "actual" by decide,
      show ("date" : String) ≠ "actual" by decide,
      show ("data" : String) ≠ "tamponi" by decide,
      show ("tamponi" : String) ≠ "data" by decide]

set_option maxHeartbeats 1000000 in
/-- C3: when the requested `current` period key is the earliest key
present (`1` among `{1, 2, 3}`), `get_report` does NOT fail: Python
`index(current) - 1 = -1` and `iloc[-1]` silently wraps to the LAST
element, so the "previous" key is the latest key `3` and a report is
returned (computed against period `3` as baseline). -/
theorem claim_C3 :
    previousKeyOf [1, 2, 3] 1 = 3 ∧
    get_report ⟨["data", "v"],
        [[Cell.date 1, Cell.num (EV.fin 10)],
         [Cell.date 2, Cell.num (EV.fin 20)],
         [Cell.date 3, Cell.num (EV.fin 30)]]⟩
      [("data", "date"), ("v", "actual")] 1 (fun t => t) "strict" =
      .ok [("v", ⟨EV.fin 10, EV.fin 10, StdEV.nan, EV.nan⟩)] := by
  constructor
  · decide
  · norm_num [get_report, reportRows, DFrame.cell, colCell, dateColumns,
      previousKeyOf, varStats, groupVals, cumulToIncr, evMax, diffVals,
      diffFrom, EV.max2, sortedDistinct, dedupSeen, insSorted, idxFrom,
      evSum, evMean, evStd, pctChange, padFill, divShift, EV.add, EV.sub,
      EV.div, EV.mul100, EV.isNan, finVals, Cell.asTs, Cell.asNum,
      show ("actual" : String) ≠ "date" by decide,
      show ("date" : String) ≠ "actual" by decide,
      show ("date" : String) ≠ "cumulative" by decide,
      show ("actual" : String) ≠ "cumulative" by decide,
      show ("data" : String) ≠ "v" by decide,
      show ("v" : String) ≠ "data" by decide]

set_option maxHeartbeats 1000000 in
/-- C6 (counterexample): a current period with exactly one record (day 2
holds the single value `7`) gets standard deviation `nan` — pandas sample
standard deviation with `ddof = 1` — not the number `0` the claim states
(`StdEV.sqrtOf 0` being the representation of a zero standard
deviation). -/
theorem claim_C6_counterexample :
    get_report ⟨["data", "v"],
        [[Cell.date 1, Cell.num (EV.fin 3)],
         [Cell.date 1, Cell.num (EV.fin 5)],
         [Cell.date 2, Cell.num (EV.fin 7)]]⟩
      [("data", "date"), ("v", "actual")] 2 (fun t => t) "strict" =
      .ok [("v", ⟨EV.fin 7, EV.fin 7, StdEV.nan, EV.fin 75⟩)] ∧
    StdEV.nan ≠ StdEV.sqrtOf 0 := by
  constructor
  · norm_num [get_report, reportRows, DFrame.cell, colCell, dateColumns,
      previousKeyOf, varStats, groupVals, cumulToIncr, evMax, diffVals,
      diffFrom, EV.max2, sortedDistinct, dedupSeen, insSorted, idxFrom,
      evSum, evMean, evStd, pctChange, padFill, divShift, EV.add, EV.sub,
      EV.div, EV.mul100, EV.isNan, finVals, Cell.asTs, Cell.asNum,
      show ("actual" : String) ≠ "date" by decide,
      show ("date" : String) ≠ "actual" by decide,
      show ("date" : String) ≠ "cumulative" by decide,
      show ("actual" : String) ≠ "cumulative" by decide,
      show ("data" : String) ≠ "v" by decide,
      show ("v" : String) ≠ "data" by decide]
  · intro h; exact StdEV.noConfusion h

/-- C6 (amended): for every variable and every current period containing
exactly one record, the standard deviation field produced by the report
statistics is `nan` (undefined), the pandas sample standard deviation
with `ddof = 1` of a single-element group — not `0`. -/
theorem claim_C6 (rows : List (Key × EV)) (current : Key)
    (h : (groupVals rows current).length = 1) :
    (varStats rows current).devStd = StdEV.nan := by
  have hst : (varStats rows current).devStd =
      evStd (groupVals rows current) := rfl
  rw [hst]
  obtain ⟨x, hx⟩ := List.length_eq_one.mp h
  rw [hx]
  cases x <;> simp [evStd, finVals, EV.isNan]

/-- C6 (witness): the single-record group `[(2, 7)]` at period `2`. -/
theorem claim_C6_witness :
    (groupVals [(2, EV.fin 7)] 2).length = 1 ∧
    (varStats [(2, EV.fin 7)] 2).devStd = StdEV.nan :=
  ⟨by decide, claim_C6 [(2, EV.fin 7)] 2 (by decide)⟩

set_option maxHeartbeats 1000000 in
/-- C7 (counterexample): with previous-period mean `0` and current mean
`5`, the percent-change field is `+inf` (numpy `5/0`), not `nan` as the
claim states; and it is not dropped at rendering (see `renderValue`). -/
theorem claim_C7_counterexample :
    get_report ⟨["data", "v"],
        [[Cell.date 1, Cell.num (EV.fin 0)],
         [Cell.date 2, Cell.num (EV.fin 5)]]⟩
      [("data", "date"), ("v", "actual")] 2 (fun t => t) "strict" =
      .ok [("v", ⟨EV.fin 5, EV.fin 5, StdEV.nan, EV.inf⟩)] ∧
    EV.inf ≠ EV.nan := by
  constructor
  · norm_num [get_report, reportRows, DFrame.cell, colCell, dateColumns,
      previousKeyOf, varStats, groupVals, cumulToIncr, evMax, diffVals,
      diffFrom, EV.max2, sortedDistinct, dedupSeen, insSorted, idxFrom,
      evSum, evMean, evStd, pctChange, padFill, divShift, EV.add, EV.sub,
      EV.div, EV.mul100, EV.isNan, finVals, Cell.asTs, Cell.asNum,
      show ("actual" : String) ≠ "date" by decide,
      show ("date" : String) ≠ "actual" by decide,
      show ("date" : String) ≠ "cumulative" by decide,
      show ("actual" : String) ≠ "cumulative" by decide,
      show ("data" : String) ≠ "v" by decide,
      show ("v" : String) ≠ "data" by decide]
  · intro h; exact EV.noConfusion h

/-- C7 (amended): when the previous-period mean is `0`, the percent
change computed by `pct_change` is `+inf` if the current mean is positive
and `nan` only when the current mean is also `0` (`0/0`); the rendering
step does not drop non-finite values — `int(x)` raises on both `inf` and
`nan`, so the whole delivery fails (and the scheduler swallows the
error). -/
theorem claim_C7 (q : ℚ) (hq : 0 < q) :
    pctChange [EV.fin 0, EV.fin q] = [EV.nan, EV.inf] ∧
    pctChange [EV.fin 0, EV.fin 0] = [EV.nan, EV.nan] ∧
    renderValue EV.inf = .error () ∧ renderValue EV.nan = .error () := by
  refine ⟨?_, by norm_num [pctChange, padFill, divShift, EV.div, EV.sub,
    EV.isNan], rfl, rfl⟩
  norm_num [pctChange, padFill, divShift, EV.div, EV.sub, EV.isNan, hq,
    hq.ne']

/-- C7 (witness): the amended theorem at current mean `5`. -/
theorem claim_C7_witness :
    (0 : ℚ) < 5 ∧
    (pctChange [EV.fin 0, EV.fin 5] = [EV.nan, EV.inf] ∧
     pctChange [EV.fin 0, EV.fin 0] = [EV.nan, EV.nan] ∧
     renderValue EV.inf = .error () ∧ renderValue EV.nan = .error ()) :=
  ⟨by norm_num, claim_C7 5 (by norm_num)⟩

theorem isErrorBranch {α : Type} (c : Prop) [Decidable c] (a : String)
    (x : Except String α) (hx : ∃ e, x = .error e) :
    ∃ e, (if c then Except.error a else x) = .error e := by
  by_cases hc : c
  · exact ⟨a, if_pos hc⟩
  · obtain ⟨e, he⟩ := hx
    exact ⟨e, by rw [if_neg hc, he]⟩

set_option maxHeartbeats 1000000 in
/-- C8: date-variable validation of `get_report`.  (1) no date-kind
variable declared → the call fails whatever the strictness flag; (2) two
or more date-kind variables under `"strict"` → the call fails; (3) under
`"ignore"`, the FIRST date variable in declaration order is used and the
call succeeds (here bucketing by `d1` yields periods `{1, 2}` and the
report for `2`); (4) swapping the declaration order makes `d2` the
selected date column, whose buckets `{5}` do not contain `2` — showing
the selection really follows declaration order. -/
theorem claim_C8 (df : DFrame) (vdecls : List (String × String))
    (current : Key) (fmt : Ts → Key) (errors : String) :
    (dateColumns vdecls = [] →
      ∃ e, get_report df vdecls current fmt errors = .error e) ∧
    (∀ d₁ d₂ ds, dateColumns vdecls = d₁ :: d₂ :: ds →
      ∃ e, get_report df vdecls current fmt "strict" = .error e) ∧
    get_report ⟨["d1", "d2", "v"],
        [[Cell.date 1, Cell.date 5, Cell.num (EV.fin 10)],
         [Cell.date 2, Cell.date 5, Cell.num (EV.fin 20)]]⟩
      [("d1", "date"), ("d2", "date"), ("v", "actual")] 2 (fun t => t)
      "ignore" =
      .ok [("v", ⟨EV.fin 20, EV.fin 20, StdEV.nan, EV.fin 100⟩)] ∧
    get_report ⟨["d1", "d2", "v"],
        [[Cell.date 1, Cell.date 5, Cell.num (EV.fin 10)],
         [Cell.date 2, Cell.date 5, Cell.num (EV.fin 20)]]⟩
      [("d2", "date"), ("d1", "date"), ("v", "actual")] 2 (fun t => t)
      "ignore" = .error "dataframe does not contain current" := by
  refine ⟨?_, ?_, ?_, ?_⟩
  · intro h
    simp only [get_report, h]
    exact isErrorBranch _ _ _ ⟨_, rfl⟩
  · intro d₁ d₂ ds h
    simp only [get_report, h]
    exact isErrorBranch _ _ _ ⟨_, if_pos ⟨by simp, rfl⟩⟩
  · norm_num [get_report, reportRows, DFrame.cell, colCell, dateColumns,
      previousKeyOf, varStats, groupVals, cumulToIncr, evMax, diffVals,
      diffFrom, EV.max2, sortedDistinct, dedupSeen, insSorted, idxFrom,
      evSum, evMean, evStd, pctChange, padFill, divShift, EV.add, EV.sub,
      EV.div, EV.mul100, EV.isNan, finVals, Cell.asTs, Cell.asNum,
      show ("actual" : String) ≠ "date" by decide,
      show ("date" : String) ≠ "actual" by decide,
      show ("date" : String) ≠ "cumulative" by decide,
      show ("actual" : String) ≠ "cumulative" by decide,
      show ("d1" : String) ≠ "v" by decide,
      show ("v" : String) ≠ "d1" by decide,
      show ("d2" : String) ≠ "v" by decide,
      show ("v" : String) ≠ "d2" by decide,
      show ("d1" : String) ≠ "d2" by decide,
      show ("d2" : String) ≠ "d1" by decide,
      show ("ignore" : String) ≠ "strict" by decide]
  · norm_num [get_report, reportRows, DFrame.cell, colCell, dateColumns,
      previousKeyOf, varStats, groupVals, cumulToIncr, evMax, diffVals,
      diffFrom, EV.max2, sortedDistinct, dedupSeen, insSorted, idxFrom,
      evSum, evMean, evStd, pctChange, padFill, divShift, EV.add, EV.sub,
      EV.div, EV.mul100, EV.isNan, finVals, Cell.asTs, Cell.asNum,
      show ("actual" : String) ≠ "date" by decide,
      show ("date" : String) ≠ "actual" by decide,
      show ("date" : String) ≠ "cumulative" by decide,
      show ("actual" : String) ≠ "cumulative" by decide,
      show ("d1" : String) ≠ "v" by decide,
      show ("v" : String) ≠ "d1" by decide,
      show ("d2" : String) ≠ "v" by decide,
      show ("v" : String) ≠ "d2" by decide,
      show ("d1" : String) ≠ "d2" by decide,
      show ("d2" : String) ≠ "d1" by decide,
      show ("ignore" : String) ≠ "strict" by decide]

/-- C8 (witness): a declaration list with no date variable fails in
`"ignore"` mode; a list with two date variables fails in `"strict"`
mode. -/
theorem claim_C8_witness :
    (∃ e, get_report ⟨["v"], [[Cell.num (EV.fin 1)]]⟩ [("v", "actual")] 0
      (fun t => t) "ignore" = .error e) ∧
    (∃ e, get_report ⟨["d1", "d2", "v"],
        [[Cell.date 1, Cell.date 5, Cell.num (EV.fin 10)],
         [Cell.date 2, Cell.date 5, Cell.num (EV.fin 20)]]⟩
      [("d1", "date"), ("d2", "date"), ("v", "actual")] 2 (fun t => t)
      "strict" = .error e) :=
  ⟨(claim_C8 ⟨["v"], [[Cell.num (EV.fin 1)]]⟩ [("v", "actual")] 0
      (fun t => t) "ignore").1 (by decide),
   (claim_C8 ⟨["d1", "d2", "v"],
        [[Cell.date 1, Cell.date 5, Cell.num (EV.fin 10)],
         [Cell.date 2, Cell.date 5, Cell.num (EV.fin 20)]]⟩
      [("d1", "date"), ("d2", "date"), ("v", "actual")] 2 (fun t => t)
      "ignore").2.1 "d1" "d2" [] (by decide)⟩

/-- C4 (counterexample): a single failing `db.update()` makes the whole
pass end in an uncaught exception (the update loop of `Reporter._target`
is outside any `try`), contradicting "no exception propagates out of the
pass" and "a failure while refreshing a data source is logged and the
pass continues". -/
theorem claim_C4_counterexample :
    schedulerPass ⟨["giorno"], (fun _ => 0), ["contagions"]⟩ [false]
      (fun _ _ => true) false [] = .error () := rfl

/-- C4 (amended): per-combination failures of report generation/dispatch
are caught (with all `db.update()` calls succeeding the pass always
completes with `.ok`, whatever the send outcomes), but a data-source
refresh failure is NOT caught: outside quiet hours it propagates out of
the pass as an uncaught exception, terminating the scheduler thread. -/
theorem claim_C4 (cfg : PassConfig) (updatesOk : List Bool)
    (send : Nat → String → Bool) (quiet : Bool) (st : ChatStore) :
    (updatesOk.all (fun u => u = true) = true →
      ∃ r, schedulerPass cfg updatesOk send quiet st = .ok r) ∧
    (false ∈ updatesOk → quiet = false →
      schedulerPass cfg updatesOk send quiet st = .error ()) := by
  constructor
  · intro h
    unfold schedulerPass
    simp only [List.all_eq_true, decide_eq_true_eq] at h
    by_cases hq : quiet
    · simp [hq]
    · have hnf : false ∉ updatesOk := fun mem => by simpa using h false mem
      simp [hq, hnf]
  · intro hf hq
    subst hq
    unfold schedulerPass
    simp [hf]

/-- C4 (witness): the amended theorem at a one-source configuration, with
the refresh succeeding and failing respectively. -/
theorem claim_C4_witness :
    (∃ r, schedulerPass ⟨["giorno"], (fun _ => 0), ["contagions"]⟩ [true]
      (fun _ _ => true) false [] = .ok r) ∧
    schedulerPass ⟨["giorno"], (fun _ => 0), ["contagions"]⟩ [false]
      (fun _ _ => true) false [] = .error () :=
  ⟨(claim_C4 ⟨["giorno"], (fun _ => 0), ["contagions"]⟩ [true]
      (fun _ _ => true) false []).1 (by decide),
   (claim_C4 ⟨["giorno"], (fun _ => 0), ["contagions"]⟩ [false]
      (fun _ _ => true) false []).2 (by decide) rfl⟩

theorem passInv_id (c₀ : Nat) (db₀ : String) (K₀ : Key) (st : ChatStore) :
    PassInv c₀ db₀ K₀ st st [] :=
  ⟨fun _ => rfl, by simp [countFor], fun h => ⟨rfl, h⟩, by simp [countFor]⟩

theorem passInv_comp (c₀ : Nat) (db₀ : String) (K₀ : Key)
    (st st₁ st₂ : ChatStore) (d₁ d₂ : List Disp)
    (H₁ : PassInv c₀ db₀ K₀ st st₁ d₁)
    (H₂ : PassInv c₀ db₀ K₀ st₁ st₂ d₂) :
    PassInv c₀ db₀ K₀ st st₂ (d₁ ++ d₂) := by
  obtain ⟨P₁, B₁, Z₁, O₁⟩ := H₁
  obtain ⟨P₂, B₂, Z₂, O₂⟩ := H₂
  refine ⟨fun x => (P₂ x).trans (P₁ x), ?_, ?_, ?_⟩ <;>
    rw [countFor_append]
  · by_cases h1 : 1 ≤ countFor c₀ db₀ d₁
    · have hz := (Z₂ (O₁ h1)).1
      omega
    · omega
  · intro hm
    obtain ⟨hz₁, hm₁⟩ := Z₁ hm
    obtain ⟨hz₂, hm₂⟩ := Z₂ hm₁
    exact ⟨by omega, hm₂⟩
  · intro h
    by_cases h2 : 1 ≤ countFor c₀ db₀ d₂
    · exact O₂ h2
    · exact (Z₂ (O₁ (by omega))).2

theorem stMarker_at (st : ChatStore) (c : Nat) (cd : ChatData)
    (db : String) (hcd : alGet st c = some cd) :
    stMarker st c db = markerOf cd db := by
  unfold stMarker
  rw [hcd]

theorem stMarker_set_self (st : ChatStore) (c : Nat) (cd' : ChatData)
    (db : String) : stMarker (alSet st c cd') c db = markerOf cd' db := by
  unfold stMarker
  rw [alGet_alSet_self]

theorem stMarker_set_ne (st : ChatStore) (c c' : Nat) (cd' : ChatData)
    (db : String) (h : c' ≠ c) :
    stMarker (alSet st c cd') c' db = stMarker st c' db := by
  unfold stMarker
  rw [alGet_alSet_ne _ _ _ _ h]

theorem stPeriod_set (st : ChatStore) (c : Nat) (cd cd' : ChatData)
    (hcd : alGet st c = some cd) (hp : cd'.period = cd.period) (x : Nat) :
    stPeriod (alSet st c cd') x = stPeriod st x := by
  by_cases hx : x = c
  · subst hx
    unfold stPeriod
    rw [alGet_alSet_self, hcd]
    exact hp
  · unfold stPeriod
    rw [alGet_alSet_ne _ _ _ _ hx]

theorem countFor_single (c₀ c : Nat) (db₀ db : String) (k : Key) :
    countFor c₀ db₀ [⟨c, db, k⟩] =
      if c = c₀ ∧ db = db₀ then 1 else 0 := by
  by_cases h : c = c₀ ∧ db = db₀ <;> simp [countFor, h]

theorem tryDeliver_inv (send : Nat → String → Bool) (c : Nat) (db : String)
    (cur : Key) (st : ChatStore) (c₀ : Nat) (db₀ : String) (K₀ : Key)
    (hside : c = c₀ → db = db₀ → cur = K₀) :
    PassInv c₀ db₀ K₀ st (tryDeliver send c db cur st).1
      (tryDeliver send c db cur st).2 := by
  rcases hcd : alGet st c with _ | cd
  · unfold tryDeliver
    rw [hcd]
    exact passInv_id c₀ db₀ K₀ st
  · unfold tryDeliver
    rw [hcd]
    dsimp only
    by_cases hm : markerOf cd db = some cur
    · rw [if_pos hm]
      exact passInv_id c₀ db₀ K₀ st
    · rw [if_neg hm]
      by_cases hs : send c db = true
      · rw [if_pos hs]
        dsimp only
        refine ⟨fun x => stPeriod_set st c cd _ hcd
          (period_update cd db cur) x, ?_, ?_, ?_⟩
        · rw [countFor_single]
          split <;> omega
        · intro hm₀
          by_cases htgt : c = c₀ ∧ db = db₀
          · exfalso
            obtain ⟨hc, hdb⟩ := htgt
            subst hc; subst hdb
            rw [stMarker_at st c cd db hcd] at hm₀
            rw [hside rfl rfl] at hm
            exact hm hm₀
          · refine ⟨by rw [countFor_single, if_neg htgt], ?_⟩
            by_cases hc : c = c₀
            · have hdb : db₀ ≠ db := by
                intro h
                exact htgt ⟨hc, h.symm⟩
              subst hc
              rw [stMarker_at st c cd db₀ hcd] at hm₀
              rw [stMarker_set_self]
              exact markerOf_update_ne cd db db₀ cur hdb K₀ hm₀
            · rw [stMarker_set_ne st c c₀ _ db₀ (fun h => hc h.symm)]
              exact hm₀
        · intro hone
          rw [countFor_single] at hone
          by_cases htgt : c = c₀ ∧ db = db₀
          · obtain ⟨hc, hdb⟩ := htgt
            subst hc; subst hdb
            have hcur := hside rfl rfl
            subst hcur
            rw [stMarker_set_self]
            exact markerOf_update_self cd db cur
          · rw [if_neg htgt] at hone
            omega
      · rw [if_neg hs]
        exact passInv_id c₀ db₀ K₀ st

theorem procDbs_inv (send : Nat → String → Bool) (c : Nat) (cur : Key)
    (dbs : List String) (st : ChatStore) (c₀ : Nat) (db₀ : String)
    (K₀ : Key) (hside : c = c₀ → cur = K₀) :
    PassInv c₀ db₀ K₀ st (procDbs send c cur dbs st).1
      (procDbs send c cur dbs st).2 := by
  induction dbs generalizing st with
  | nil => exact passInv_id c₀ db₀ K₀ st
  | cons db rest ih =>
      unfold procDbs
      exact passInv_comp c₀ db₀ K₀ st _ _ _ _
        (tryDeliver_inv send c db cur st c₀ db₀ K₀
          (fun hc _ => hside hc))
        (ih _)

theorem procChat_inv (send : Nat → String → Bool) (cfg : PassConfig)
    (c : Nat) (periods : List String) (st : ChatStore) (c₀ : Nat)
    (db₀ : String) (K₀ : Key)
    (hside : c = c₀ → ∀ p, stPeriod st c = some p → cfg.currentOf p = K₀) :
    PassInv c₀ db₀ K₀ st (procChat send cfg c periods st).1
      (procChat send cfg c periods st).2 := by
  induction periods generalizing st with
  | nil => exact passInv_id c₀ db₀ K₀ st
  | cons p rest ih =>
      unfold procChat
      by_cases hp : stPeriod st c = some p
      · rw [if_pos hp]
        have H₁ := procDbs_inv send c (cfg.currentOf p) cfg.dbKeys st c₀
          db₀ K₀ (fun hc => hside hc p hp)
        refine passInv_comp c₀ db₀ K₀ st _ _ _ _ H₁ (ih _ ?_)
        intro hc p' hp'
        exact hside hc p' (by rw [← H₁.1 c]; exact hp')
      · rw [if_neg hp]
        exact ih st hside

theorem runChats_inv (send : Nat → String → Bool) (cfg : PassConfig)
    (cs : List Nat) (st : ChatStore) (c₀ : Nat) (db₀ : String) (K₀ : Key)
    (hside : ∀ p, stPeriod st c₀ = some p → cfg.currentOf p = K₀) :
    PassInv c₀ db₀ K₀ st (runChats send cfg cs st).1
      (runChats send cfg cs st).2 := by
  induction cs generalizing st with
  | nil => exact passInv_id c₀ db₀ K₀ st
  | cons c rest ih =>
      unfold runChats
      have H₁ := procChat_inv send cfg c cfg.periods st c₀ db₀ K₀
        (fun hc => by subst hc; exact hside)
      refine passInv_comp c₀ db₀ K₀ st _ _ _ _ H₁ (ih _ ?_)
      intro p hp
      exact hside p (by rw [← H₁.1 c₀]; exact hp)

theorem runPass_inv (send : Nat → String → Bool) (cfg : PassConfig)
    (st : ChatStore) (c₀ : Nat) (db₀ : String) (K₀ : Key)
    (hside : ∀ p, stPeriod st c₀ = some p → cfg.currentOf p = K₀) :
    PassInv c₀ db₀ K₀ st (runPass send cfg st).1 (runPass send cfg st).2 :=
  runChats_inv send cfg (st.map Prod.fst) st c₀ db₀ K₀ hside

/-- C5: the delivery marker is read before each attempt (`tryDeliver`
skips when it equals the current key) and written only after a successful
dispatch; consequently two consecutive passes over any store — with the
per-cadence current period keys unchanged between passes and arbitrary,
even different, send outcomes — dispatch to any given subscriber/source
pair at most once in total. -/
theorem claim_C5 (cfg : PassConfig) (send1 send2 : Nat → String → Bool)
    (st : ChatStore) (c : Nat) (db : String) :
    countFor c db ((runPass send1 cfg st).2 ++
      (runPass send2 cfg (runPass send1 cfg st).1).2) ≤ 1 := by
  set K₀ : Key := match stPeriod st c with
    | some p => cfg.currentOf p
    | none => 0 with hK
  have hside : ∀ p, stPeriod st c = some p → cfg.currentOf p = K₀ := by
    intro p hp
    rw [hK, hp]
  have H₁ := runPass_inv send1 cfg st c db K₀ hside
  have hside₂ : ∀ p, stPeriod (runPass send1 cfg st).1 c = some p →
      cfg.currentOf p = K₀ := by
    intro p hp
    exact hside p (by rw [← H₁.1 c]; exact hp)
  have H₂ := runPass_inv send2 cfg (runPass send1 cfg st).1 c db K₀ hside₂
  have H := passInv_comp c db K₀ st _ _ _ _ H₁ H₂
  exact H.2.1
